import Mathlib

/-!
Verification of the switch/door coordination environment
(social_dilemmas/envs/switch.py).

The Python class SwitchEnv is embedded shallowly: its mutable instance
fields become a Lean structure, each method becomes a pure function from
the structure to the structure.  The shared grid (a numpy character
array owned by the base engine) is embedded as a total function from
(row, col) coordinates to characters; the byte cells b"s", b"S", b"d",
b"D" become the characters between single quotes.  Python int fields
become Int (or Nat where the source only ever stores non-negative
counts), and the floating not-a-number sentinel used for the two pull
timestamps becomes Option Nat with none as the unset sentinel.

The base class MapEnv and the module social_dilemmas.maps are not part
of the sources; the handful of primitives taken from them (the
update_map batch write, the dict-merge in step, the row templates of
SwitchMapElements) are modelled from the specification and marked as
such in their doc comments.
-/

/-- State of a SwitchEnv instance: the grid plus every instance field of
the Python class that the switch/door logic reads or writes. -/
@[ext]
structure SwitchEnv where
  world_map : Nat × Nat → Char
  initial_map_state : List ((Nat × Nat) × Char)
  switch_locations : List (Nat × Nat)
  door_locations : List (Nat × Nat)
  switch_count : Nat
  prev_activated_switch_count : Int
  timestep : Nat
  total_pulled_on : Int
  total_pulled_off : Int
  timestep_first_switch_pull : Option Nat
  timestep_last_switch_pull : Option Nat
  switches_on_at_termination : Int
  total_successes : Int

/-- GIVE_EXTERNAL_SWITCH_REWARD = int(False): the external switch reward
is disabled, so the per-agent reward term switch_difference * 0 added in
custom_map_update is identically zero and agent reward accumulators are
not part of this state. -/
def GIVE_EXTERNAL_SWITCH_REWARD : Int := 0

/-- Modelled from the spec: the generic update_map batch-apply primitive
of the base engine MapEnv (absent from the sources), which applies a
list of (row, col, symbol) writes to the grid in order. -/
def update_map (g : Nat × Nat → Char) (updates : List (Nat × Nat × Char)) :
    Nat × Nat → Char :=
  updates.foldl (fun g u => fun rc => if rc = (u.1, u.2.1) then u.2.2 else g rc) g

/-- The loop at the top of custom_map_update: count how many registered
switch coordinates currently hold the switch-on symbol. -/
def activated_switch_count (s : SwitchEnv) : Nat :=
  s.switch_locations.countP (fun rc => s.world_map rc == 'S')

/-- switch_difference = activated_switch_count - prev_activated_switch_count,
computed before the cached previous value is overwritten. -/
def switch_difference (s : SwitchEnv) : Int :=
  (activated_switch_count s : Int) - s.prev_activated_switch_count

/-- SwitchEnv.custom_map_update: recount the activated switches, cache
the new count, write the door symbol (open iff the count equals
switch_count) to every registered door coordinate, and when the count
changed update the pull metrics and the termination snapshot. -/
def custom_map_update (s : SwitchEnv) : SwitchEnv :=
  let s2 := { s with
    prev_activated_switch_count := (activated_switch_count s : Int),
    world_map := update_map s.world_map
      (s.door_locations.map (fun rc =>
        (rc.1, rc.2, if activated_switch_count s = s.switch_count then 'd' else 'D'))) }
  if switch_difference s ≠ 0 then
    { s2 with
      timestep_last_switch_pull := some s2.timestep,
      timestep_first_switch_pull :=
        if s2.timestep_first_switch_pull = none then some s2.timestep
        else s2.timestep_first_switch_pull,
      total_pulled_on := s2.total_pulled_on + max 0 (switch_difference s),
      total_pulled_off := s2.total_pulled_off + max 0 (-(switch_difference s)),
      switches_on_at_termination := (activated_switch_count s : Int) }
  else s2

/-- The loop of custom_reset: write each recorded initial symbol back to
its coordinate, in insertion order. -/
def apply_initial_state (g : Nat × Nat → Char)
    (l : List ((Nat × Nat) × Char)) : Nat × Nat → Char :=
  l.foldl (fun g p => fun rc => if rc = p.1 then p.2 else g rc) g

/-- SwitchEnv.custom_reset: restore every recorded switch/door cell to
its initial symbol and zero all episode metrics. -/
def custom_reset (s : SwitchEnv) : SwitchEnv :=
  { s with
    world_map := apply_initial_state s.world_map s.initial_map_state,
    prev_activated_switch_count := 0,
    timestep := 0,
    total_pulled_on := 0,
    total_pulled_off := 0,
    timestep_first_switch_pull := none,
    timestep_last_switch_pull := none,
    switches_on_at_termination := 0,
    total_successes := 0 }

/-- Modelled from the spec: the row templates of SwitchMapElements in
social_dilemmas.maps (absent from the sources).  Per the spec the
two-switch, one-switch and empty templates embed exactly 2, 1 and 0
switch symbols, the border rows embed none, and column index 3 of every
template is a plain cell so that the spawn marker does not collide with
a required layout character. -/
def top_row : List Char := [ '@', '@', '@', '@', '@', '@', '@' ]

/-- Modelled from the spec: see top_row. -/
def bottom_row : List Char := [ '@', '@', '@', '@', '@', '@', '@' ]

/-- Modelled from the spec: see top_row. -/
def empty_row : List Char := [ '@', ' ', ' ', ' ', ' ', ' ', '@' ]

/-- Modelled from the spec: see top_row. -/
def one_switch_row : List Char := [ '@', 's', ' ', ' ', ' ', ' ', '@' ]

/-- Modelled from the spec: see top_row. -/
def two_switch_row : List Char := [ '@', 's', ' ', ' ', ' ', 's', '@' ]

/-- The loop body of construct_map: append one template row per
iteration, consuming two remaining switches with the two-switch
template, one with the one-switch template, none with the empty
template. -/
def build_rows : Nat → Nat → List (List Char)
  | 0, _ => []
  | k + 1, ns =>
    if ns = 0 then empty_row :: build_rows k ns
    else if ns = 1 then one_switch_row :: build_rows k (ns - 1)
    else two_switch_row :: build_rows k (ns - 2)

/-- row[:3] + "P" + row[4:]: overwrite column index 3 of a row with the
spawn marker. -/
def insertSpawn (row : List Char) : List Char :=
  row.take 3 ++ 'P' :: row.drop 4

/-- SwitchEnv.construct_map: max(1, ceil(n / 2)) interior rows between
the two border rows, then the spawn marker written into column 3 of the
row at index ceil(num_rows / 2).  Nat division gives ceil(n / 2) as
(n + 1) / 2. -/
def construct_map (num_switches : Nat) : List (List Char) :=
  let num_rows := max 1 ((num_switches + 1) / 2)
  let built := (top_row :: build_rows num_rows num_switches) ++ [ bottom_row ]
  let middle_row := (num_rows + 1) / 2
  built.set middle_row (insertSpawn (built.getD middle_row []))

/-- All cells of a base map as ((row, col), char), row-major, as the
double loop of the constructor enumerates them. -/
def scan_cells (m : List (List Char)) : List ((Nat × Nat) × Char) :=
  (m.enum.map (fun rp => rp.2.enum.map (fun cp => ((rp.1, cp.1), cp.2)))).flatten

/-- Body of the constructor loop: record the cell in the initial-state
snapshot when it is a switch or door symbol, in the switch registry
(bumping switch_count) when it is a switch symbol, and in the door
registry when it is a door symbol. -/
def scan_cell (s : SwitchEnv) (cell : (Nat × Nat) × Char) : SwitchEnv :=
  let s := if cell.2 ∈ ([ 's', 'S', 'd', 'D' ] : List Char) then
      { s with initial_map_state := s.initial_map_state ++ [ cell ] }
    else s
  let s := if cell.2 ∈ ([ 's', 'S' ] : List Char) then
      { s with switch_locations := s.switch_locations ++ [ cell.1 ],
               switch_count := s.switch_count + 1 }
    else s
  if cell.2 ∈ ([ 'd', 'D' ] : List Char) then
      { s with door_locations := s.door_locations ++ [ cell.1 ] }
  else s

/-- The field state a SwitchEnv has before the constructor scan loop
runs: empty registries, zeroed metrics, grid read from the base map. -/
def empty_switch_env (m : List (List Char)) : SwitchEnv :=
  { world_map := fun rc => (m.getD rc.1 []).getD rc.2 ' '
    initial_map_state := []
    switch_locations := []
    door_locations := []
    switch_count := 0
    prev_activated_switch_count := 0
    timestep := 0
    total_pulled_on := 0
    total_pulled_off := 0
    timestep_first_switch_pull := none
    timestep_last_switch_pull := none
    switches_on_at_termination := 0
    total_successes := 0 }

/-- SwitchEnv.__init__ restricted to the switch/door state: scan every
cell of the base map, building the registries and the initial-state
snapshot.  The caller-supplied switch count takes no part in this scan. -/
def SwitchEnv_init (m : List (List Char)) : SwitchEnv :=
  (scan_cells m).foldl scan_cell (empty_switch_env m)

/-- The full constructor: the base map is built by construct_map from
the requested switch count, then scanned. -/
def SwitchEnv_new (num_switches : Nat) : SwitchEnv :=
  SwitchEnv_init (construct_map num_switches)

/-- Value type of the per-agent extra info dictionary: integer counters
and optional (not-a-number sentinel) timestep markers. -/
inductive MetricValue where
  | intVal (v : Int)
  | optVal (v : Option Nat)
deriving DecidableEq

/-- SwitchEnv.create_extra_info_dict: the six logging metrics under
their string keys. -/
def create_extra_info_dict (s : SwitchEnv) : List (String × MetricValue) :=
  [ ("switches_on_at_termination", MetricValue.intVal s.switches_on_at_termination),
    ("total_pulled_on", MetricValue.intVal s.total_pulled_on),
    ("total_pulled_off", MetricValue.intVal s.total_pulled_off),
    ("timestep_first_switch_pull", MetricValue.optVal s.timestep_first_switch_pull),
    ("timestep_last_switch_pull", MetricValue.optVal s.timestep_last_switch_pull),
    ("total_successes", MetricValue.intVal s.total_successes) ]

/-- Modelled from the spec: Python dict merge of two dictionaries where
the second overrides the first, embedded as an association list whose
lookup takes the first hit, so override entries come first. -/
def dict_update (a b : List (String × List (String × MetricValue))) :
    List (String × List (String × MetricValue)) := b ++ a

/-- SwitchEnv.step.  The engine call super().step(actions) is modelled
from the spec: the engine applies all movement and beam effects for the
timestep to the grid (summarised by the replacement grid g), runs
custom_map_update once, and hands back per-agent rewards (Python floats,
embedded as rationals) and an info dictionary.  The subclass then bumps
total_successes when the first listed agent earned more than 0.1 reward,
adds its six metrics to the info dictionary under the first listed
agent only, and increments the timestep counter. -/
def SwitchEnv.step (s : SwitchEnv) (actions : List String)
    (g : Nat × Nat → Char) (rewards : String → Rat)
    (base_info : List (String × List (String × MetricValue))) :
    SwitchEnv × List (String × List (String × MetricValue)) :=
  let s1 := custom_map_update { s with world_map := g }
  let first_agent := actions.headD ""
  let s2 := if rewards first_agent > (1 / 10 : Rat) then
      { s1 with total_successes := s1.total_successes + 1 }
    else s1
  let extra_info := [ (first_agent, create_extra_info_dict s2) ]
  let s3 := { s2 with timestep := s2.timestep + 1 }
  (s3, dict_update base_info extra_info)

/-- States reachable inside one episode: a reset, followed by any
interleaving of engine effects (the engine owns the grid and may rewrite
it arbitrarily between coordination passes; the step wrapper also bumps
the timestep and success counters) and runs of custom_map_update. -/
inductive Reachable : SwitchEnv → Prop
  | reset : ∀ s, Reachable (custom_reset s)
  | engine : ∀ s g t k, Reachable s →
      Reachable { s with world_map := g, timestep := t, total_successes := k }
  | update : ∀ s, Reachable s → Reachable (custom_map_update s)

/-! ## Projection lemmas for custom_map_update -/

theorem cmu_world_map (s : SwitchEnv) :
    (custom_map_update s).world_map = update_map s.world_map
      (s.door_locations.map (fun rc =>
        (rc.1, rc.2, if activated_switch_count s = s.switch_count then 'd' else 'D'))) := by
  simp only [custom_map_update]
  split <;> rfl

theorem cmu_prev (s : SwitchEnv) :
    (custom_map_update s).prev_activated_switch_count = (activated_switch_count s : Int) := by
  simp only [custom_map_update]
  split <;> rfl

theorem cmu_switch_locations (s : SwitchEnv) :
    (custom_map_update s).switch_locations = s.switch_locations := by
  simp only [custom_map_update]
  split <;> rfl

theorem cmu_door_locations (s : SwitchEnv) :
    (custom_map_update s).door_locations = s.door_locations := by
  simp only [custom_map_update]
  split <;> rfl

theorem cmu_switch_count (s : SwitchEnv) :
    (custom_map_update s).switch_count = s.switch_count := by
  simp only [custom_map_update]
  split <;> rfl

theorem cmu_initial_map_state (s : SwitchEnv) :
    (custom_map_update s).initial_map_state = s.initial_map_state := by
  simp only [custom_map_update]
  split <;> rfl

theorem cmu_timestep (s : SwitchEnv) :
    (custom_map_update s).timestep = s.timestep := by
  simp only [custom_map_update]
  split <;> rfl

theorem cmu_total_pulled_on (s : SwitchEnv) :
    (custom_map_update s).total_pulled_on
      = s.total_pulled_on + max 0 (switch_difference s) := by
  simp only [custom_map_update]
  split
  · rfl
  · next h =>
    have h0 : switch_difference s = 0 := by
      by_contra hc
      exact h hc
    simp [h0]

theorem cmu_total_pulled_off (s : SwitchEnv) :
    (custom_map_update s).total_pulled_off
      = s.total_pulled_off + max 0 (-(switch_difference s)) := by
  simp only [custom_map_update]
  split
  · rfl
  · next h =>
    have h0 : switch_difference s = 0 := by
      by_contra hc
      exact h hc
    simp [h0]

theorem cmu_term (s : SwitchEnv) :
    (custom_map_update s).switches_on_at_termination
      = if switch_difference s = 0 then s.switches_on_at_termination
        else (activated_switch_count s : Int) := by
  simp only [custom_map_update]
  split
  · next h => simp [h]
  · next h =>
    have h0 : switch_difference s = 0 := by
      by_contra hc
      exact h hc
    simp [h0]

/-! ## The door write: uniform value at door coordinates, frame elsewhere -/

theorem update_map_const_char (coords : List (Nat × Nat)) (g : Nat × Nat → Char)
    (c : Char) (rc : Nat × Nat) :
    update_map g (coords.map (fun p => (p.1, p.2, c))) rc
      = if rc ∈ coords then c else g rc := by
  induction coords generalizing g with
  | nil => simp [update_map]
  | cons p t ih =>
    simp only [List.map_cons, update_map, List.foldl_cons] at *
    rw [ih]
    by_cases ht : rc ∈ t
    · simp [ht]
    · by_cases hp : rc = p
      · simp [ht, hp]
      · simp [ht, hp, List.mem_cons]

/-- A small concrete environment state, used to instantiate theorems
with hypotheses: one registered switch at (1, 1), currently on, one
registered door at (2, 2), fresh metrics. -/
def w1 : SwitchEnv :=
  { world_map := fun rc => if rc = (1, 1) then 'S' else if rc = (2, 2) then 'D' else ' '
    initial_map_state := [ ((1, 1), 's'), ((2, 2), 'D') ]
    switch_locations := [ (1, 1) ]
    door_locations := [ (2, 2) ]
    switch_count := 1
    prev_activated_switch_count := 0
    timestep := 0
    total_pulled_on := 0
    total_pulled_off := 0
    timestep_first_switch_pull := none
    timestep_last_switch_pull := none
    switches_on_at_termination := 0
    total_successes := 0 }

/-- C1: after custom_map_update, every registered door coordinate holds
the open-door symbol when the recounted activation equals switch_count
and the closed-door symbol otherwise; the written symbol does not depend
on the coordinate, so the doors of one update batch never mix. -/
theorem C1_doors_uniform (s : SwitchEnv) (rc : Nat × Nat)
    (h : rc ∈ s.door_locations) :
    (custom_map_update s).world_map rc
      = (if activated_switch_count s = s.switch_count then 'd' else 'D') := by
  rw [cmu_world_map, update_map_const_char]
  simp [h]

theorem C1_doors_uniform_witness :
    (2, 2) ∈ w1.door_locations ∧
      (custom_map_update w1).world_map (2, 2)
        = (if activated_switch_count w1 = w1.switch_count then 'd' else 'D') :=
  ⟨by decide, C1_doors_uniform w1 (2, 2) (by decide)⟩

/-- C9: custom_map_update leaves every grid cell outside the registered
door coordinates unchanged. -/
theorem C9_frame_outside_doors (s : SwitchEnv) (rc : Nat × Nat)
    (h : rc ∉ s.door_locations) :
    (custom_map_update s).world_map rc = s.world_map rc := by
  rw [cmu_world_map, update_map_const_char]
  simp [h]

theorem C9_frame_outside_doors_witness :
    (1, 1) ∉ w1.door_locations ∧
      (custom_map_update w1).world_map (1, 1) = w1.world_map (1, 1) :=
  ⟨by decide, C9_frame_outside_doors w1 (1, 1) (by decide)⟩

/-- C8: one run of custom_map_update adds exactly max(0, delta) to
total_pulled_on and max(0, -delta) to total_pulled_off, so both
counters are non-decreasing across the timesteps of an episode. -/
theorem C8_pull_counters_monotone (s : SwitchEnv) :
    (custom_map_update s).total_pulled_on
        = s.total_pulled_on + max 0 (switch_difference s)
      ∧ (custom_map_update s).total_pulled_off
        = s.total_pulled_off + max 0 (-(switch_difference s))
      ∧ s.total_pulled_on ≤ (custom_map_update s).total_pulled_on
      ∧ s.total_pulled_off ≤ (custom_map_update s).total_pulled_off := by
  refine ⟨cmu_total_pulled_on s, cmu_total_pulled_off s, ?_, ?_⟩
  · rw [cmu_total_pulled_on]
    exact le_add_of_nonneg_right (le_max_left 0 _)
  · rw [cmu_total_pulled_off]
    exact le_add_of_nonneg_right (le_max_left 0 _)

/-- In every reachable state the lazily captured termination snapshot
agrees with the cached previous activation count. -/
theorem term_eq_prev_of_reachable (s : SwitchEnv) (h : Reachable s) :
    s.switches_on_at_termination = s.prev_activated_switch_count := by
  induction h with
  | reset s => rfl
  | engine s g t k _ ih => exact ih
  | update s _ ih =>
    rw [cmu_term, cmu_prev]
    by_cases h0 : switch_difference s = 0
    · have : (activated_switch_count s : Int) = s.prev_activated_switch_count := by
        have := h0
        unfold switch_difference at this
        omega
      simp [h0, ih, this]
    · simp [h0]

/-- C4: from any reachable state, running custom_map_update leaves
switches_on_at_termination equal to the activation count it just
recomputed from the grid, whether or not the count changed. -/
theorem C4_termination_snapshot (s : SwitchEnv) (h : Reachable s) :
    (custom_map_update s).switches_on_at_termination
      = (activated_switch_count s : Int) := by
  rw [cmu_term]
  by_cases h0 : switch_difference s = 0
  · have hp : (activated_switch_count s : Int) = s.prev_activated_switch_count := by
      have := h0
      unfold switch_difference at this
      omega
    rw [if_pos h0, term_eq_prev_of_reachable s h, hp]
  · simp [h0]

theorem C4_termination_snapshot_witness :
    (custom_map_update (custom_reset w1)).switches_on_at_termination
      = (activated_switch_count (custom_reset w1) : Int) :=
  C4_termination_snapshot (custom_reset w1) (Reachable.reset w1)

/-- In every reachable state the cumulative on-toggles minus the
cumulative off-toggles balance to the cached activation count. -/
theorem on_off_balance_of_reachable (s : SwitchEnv) (h : Reachable s) :
    s.total_pulled_on - s.total_pulled_off = s.prev_activated_switch_count := by
  induction h with
  | reset s => rfl
  | engine s g t k _ ih => exact ih
  | update s _ ih =>
    rw [cmu_total_pulled_on, cmu_total_pulled_off, cmu_prev]
    have hmax : max 0 (switch_difference s) - max 0 (-(switch_difference s))
        = switch_difference s := by
      rcases le_total (switch_difference s) 0 with hle | hle
      · rw [max_eq_left hle, max_eq_right (by omega : (0 : Int) ≤ -(switch_difference s))]
        omega
      · rw [max_eq_right hle, max_eq_left (by omega : -(switch_difference s) ≤ (0 : Int))]
        omega
    have hd : switch_difference s
        = (activated_switch_count s : Int) - s.prev_activated_switch_count := rfl
    omega

/-- C10: starting from zeroed totals and a zeroed previous count at
reset, after every execution of custom_map_update the difference
total_pulled_on - total_pulled_off equals the activation count the
update just computed (which it cached in prev_activated_switch_count). -/
theorem C10_pull_balance (s : SwitchEnv) (h : Reachable s) :
    s.total_pulled_on - s.total_pulled_off = s.prev_activated_switch_count
      ∧ (custom_map_update s).total_pulled_on - (custom_map_update s).total_pulled_off
          = (activated_switch_count s : Int) := by
  refine ⟨on_off_balance_of_reachable s h, ?_⟩
  have h2 := on_off_balance_of_reachable (custom_map_update s) (Reachable.update s h)
  rw [h2, cmu_prev]

theorem C10_pull_balance_witness :
    (custom_reset w1).total_pulled_on - (custom_reset w1).total_pulled_off
        = (custom_reset w1).prev_activated_switch_count
      ∧ (custom_map_update (custom_reset w1)).total_pulled_on
          - (custom_map_update (custom_reset w1)).total_pulled_off
        = (activated_switch_count (custom_reset w1) : Int) :=
  C10_pull_balance (custom_reset w1) (Reachable.reset w1)

theorem cmu_last_pull (s : SwitchEnv) :
    (custom_map_update s).timestep_last_switch_pull
      = if switch_difference s = 0 then s.timestep_last_switch_pull
        else some s.timestep := by
  simp only [custom_map_update]
  split
  · next h => simp [h]
  · next h =>
    have h0 : switch_difference s = 0 := by
      by_contra hc
      exact h hc
    simp [h0]

theorem cmu_first_pull (s : SwitchEnv) :
    (custom_map_update s).timestep_first_switch_pull
      = if switch_difference s = 0 then s.timestep_first_switch_pull
        else if s.timestep_first_switch_pull = none then some s.timestep
        else s.timestep_first_switch_pull := by
  simp only [custom_map_update]
  split
  · next h => simp [h]
  · next h =>
    have h0 : switch_difference s = 0 := by
      by_contra hc
      exact h hc
    simp [h0]

/-- C5: custom_reset puts both pull timestamps back to the unset
sentinel; a run of custom_map_update with a zero activation delta leaves
both untouched; a run with a nonzero delta always rewrites the last-pull
timestamp to the current timestep and writes the first-pull timestamp
only when it is still the sentinel — and a recorded timestep 0 is
distinct from the sentinel. -/
theorem C5_pull_sentinels (s : SwitchEnv) :
    ((custom_reset s).timestep_first_switch_pull = none
        ∧ (custom_reset s).timestep_last_switch_pull = none)
      ∧ (switch_difference s = 0 →
          (custom_map_update s).timestep_first_switch_pull
              = s.timestep_first_switch_pull
            ∧ (custom_map_update s).timestep_last_switch_pull
              = s.timestep_last_switch_pull)
      ∧ (switch_difference s ≠ 0 →
          (custom_map_update s).timestep_last_switch_pull = some s.timestep
            ∧ (custom_map_update s).timestep_first_switch_pull
              = (if s.timestep_first_switch_pull = none then some s.timestep
                 else s.timestep_first_switch_pull)
            ∧ (some s.timestep : Option Nat) ≠ none) := by
  refine ⟨⟨rfl, rfl⟩, ?_, ?_⟩
  · intro h0
    rw [cmu_first_pull, cmu_last_pull]
    simp [h0]
  · intro h0
    rw [cmu_first_pull, cmu_last_pull]
    simp [h0]

theorem C5_pull_sentinels_witness :
    switch_difference w1 ≠ 0
      ∧ (custom_map_update w1).timestep_last_switch_pull = some w1.timestep
      ∧ (custom_map_update w1).timestep_first_switch_pull
          = (if w1.timestep_first_switch_pull = none then some w1.timestep
             else w1.timestep_first_switch_pull)
      ∧ (some w1.timestep : Option Nat) ≠ none :=
  ⟨by decide, (C5_pull_sentinels w1).2.2 (by decide)⟩

/-! ## Behaviour of the reset restore loop -/

theorem apply_initial_state_congr (l : List ((Nat × Nat) × Char))
    (g1 g2 : Nat × Nat → Char) (rc : Nat × Nat) (h : g1 rc = g2 rc) :
    apply_initial_state g1 l rc = apply_initial_state g2 l rc := by
  induction l generalizing g1 g2 with
  | nil => exact h
  | cons p t ih =>
    simp only [apply_initial_state, List.foldl_cons] at *
    apply ih
    by_cases hp : rc = p.1
    · simp [hp]
    · simp [hp, h]

theorem apply_initial_state_not_mem (l : List ((Nat × Nat) × Char))
    (g : Nat × Nat → Char) (rc : Nat × Nat) (h : rc ∉ l.map Prod.fst) :
    apply_initial_state g l rc = g rc := by
  induction l generalizing g with
  | nil => rfl
  | cons p t ih =>
    simp only [List.map_cons, List.mem_cons] at h
    push_neg at h
    simp only [apply_initial_state, List.foldl_cons] at *
    rw [ih _ h.2]
    simp [h.1]

theorem apply_initial_state_mem_base_irrel (l : List ((Nat × Nat) × Char))
    (g1 g2 : Nat × Nat → Char) (rc : Nat × Nat) (h : rc ∈ l.map Prod.fst) :
    apply_initial_state g1 l rc = apply_initial_state g2 l rc := by
  induction l generalizing g1 g2 with
  | nil => simp at h
  | cons p t ih =>
    simp only [List.map_cons, List.mem_cons] at h
    simp only [apply_initial_state, List.foldl_cons] at *
    by_cases ht : rc ∈ t.map Prod.fst
    · exact ih _ _ ht
    · have hp : rc = p.1 := by
        rcases h with h | h
        · exact h
        · exact absurd h ht
      apply apply_initial_state_congr
      simp [hp]

theorem apply_initial_state_idem (l : List ((Nat × Nat) × Char))
    (g : Nat × Nat → Char) (rc : Nat × Nat) :
    apply_initial_state (apply_initial_state g l) l rc
      = apply_initial_state g l rc := by
  by_cases h : rc ∈ l.map Prod.fst
  · exact apply_initial_state_mem_base_irrel l _ g rc h
  · rw [apply_initial_state_not_mem l _ rc h]

theorem apply_initial_state_mem_nodup (l : List ((Nat × Nat) × Char))
    (g : Nat × Nat → Char) (p : (Nat × Nat) × Char)
    (hnd : (l.map Prod.fst).Nodup) (hmem : p ∈ l) :
    apply_initial_state g l p.1 = p.2 := by
  induction l generalizing g with
  | nil => simp at hmem
  | cons q t ih =>
    simp only [List.map_cons, List.nodup_cons] at hnd
    simp only [apply_initial_state, List.foldl_cons] at *
    rcases List.mem_cons.mp hmem with hq | ht
    · subst hq
      have hstop := apply_initial_state_not_mem t
        (fun rc => if rc = p.1 then p.2 else g rc) p.1 hnd.1
      simp only [apply_initial_state] at hstop
      rw [hstop]
      simp
    · exact ih _ hnd.2 ht

/-- C7: resetting twice in a row is the same state as resetting once; in
that state every recorded switch/door cell holds its initial symbol (the
recorded coordinates are pairwise distinct, as the construction scan
visits every cell once), every episode metric is zero, both pull
timestamps are the unset sentinel, and the cached previous activation
count is zero. -/
theorem C7_reset_idempotent (s : SwitchEnv)
    (hnd : (s.initial_map_state.map Prod.fst).Nodup) :
    custom_reset (custom_reset s) = custom_reset s
      ∧ (∀ p ∈ s.initial_map_state,
          (custom_reset (custom_reset s)).world_map p.1 = p.2)
      ∧ (custom_reset (custom_reset s)).prev_activated_switch_count = 0
      ∧ (custom_reset (custom_reset s)).timestep = 0
      ∧ (custom_reset (custom_reset s)).total_pulled_on = 0
      ∧ (custom_reset (custom_reset s)).total_pulled_off = 0
      ∧ (custom_reset (custom_reset s)).switches_on_at_termination = 0
      ∧ (custom_reset (custom_reset s)).total_successes = 0
      ∧ (custom_reset (custom_reset s)).timestep_first_switch_pull = none
      ∧ (custom_reset (custom_reset s)).timestep_last_switch_pull = none := by
  have hw : (custom_reset (custom_reset s)).world_map = (custom_reset s).world_map := by
    funext rc
    exact apply_initial_state_idem s.initial_map_state s.world_map rc
  have heq : custom_reset (custom_reset s) = custom_reset s :=
    SwitchEnv.ext hw rfl rfl rfl rfl rfl rfl rfl rfl rfl rfl rfl rfl
  refine ⟨heq, ?_, rfl, rfl, rfl, rfl, rfl, rfl, rfl, rfl⟩
  intro p hp
  rw [heq]
  exact apply_initial_state_mem_nodup s.initial_map_state s.world_map p hnd hp

theorem C7_reset_idempotent_witness :
    (w1.initial_map_state.map Prod.fst).Nodup
      ∧ (custom_reset (custom_reset w1) = custom_reset w1
          ∧ (∀ p ∈ w1.initial_map_state,
              (custom_reset (custom_reset w1)).world_map p.1 = p.2)
          ∧ (custom_reset (custom_reset w1)).prev_activated_switch_count = 0
          ∧ (custom_reset (custom_reset w1)).timestep = 0
          ∧ (custom_reset (custom_reset w1)).total_pulled_on = 0
          ∧ (custom_reset (custom_reset w1)).total_pulled_off = 0
          ∧ (custom_reset (custom_reset w1)).switches_on_at_termination = 0
          ∧ (custom_reset (custom_reset w1)).total_successes = 0
          ∧ (custom_reset (custom_reset w1)).timestep_first_switch_pull = none
          ∧ (custom_reset (custom_reset w1)).timestep_last_switch_pull = none) :=
  ⟨by decide, C7_reset_idempotent w1 (by decide)⟩

/-! ## The construction scan -/

theorem scan_cell_switch_locations (s : SwitchEnv) (c : (Nat × Nat) × Char) :
    (scan_cell s c).switch_locations
      = if c.2 ∈ ([ 's', 'S' ] : List Char) then s.switch_locations ++ [ c.1 ]
        else s.switch_locations := by
  simp only [scan_cell]
  split_ifs <;> rfl

theorem scan_cell_switch_count (s : SwitchEnv) (c : (Nat × Nat) × Char) :
    (scan_cell s c).switch_count
      = if c.2 ∈ ([ 's', 'S' ] : List Char) then s.switch_count + 1
        else s.switch_count := by
  simp only [scan_cell]
  split_ifs <;> rfl

theorem scan_foldl_locations_length (cells : List ((Nat × Nat) × Char))
    (s : SwitchEnv) (h : s.switch_locations.length = s.switch_count) :
    (cells.foldl scan_cell s).switch_locations.length
      = (cells.foldl scan_cell s).switch_count := by
  induction cells generalizing s with
  | nil => exact h
  | cons c t ih =>
    rw [List.foldl_cons]
    apply ih
    rw [scan_cell_switch_locations, scan_cell_switch_count]
    split_ifs with hc
    · simp [h]
    · exact h

theorem scan_foldl_count (cells : List ((Nat × Nat) × Char)) (s : SwitchEnv) :
    (cells.foldl scan_cell s).switch_count
      = s.switch_count + cells.countP (fun c => c.2 == 's' || c.2 == 'S') := by
  induction cells generalizing s with
  | nil => simp
  | cons c t ih =>
    rw [List.foldl_cons, ih, scan_cell_switch_count, List.countP_cons]
    by_cases hc : c.2 = 's' ∨ c.2 = 'S'
    · have hm : c.2 ∈ ([ 's', 'S' ] : List Char) := by
        rcases hc with hc | hc <;> simp [hc]
      have hb : (c.2 == 's' || c.2 == 'S') = true := by
        rcases hc with hc | hc <;> simp [hc]
      rw [if_pos hm, hb]
      simp
      omega
    · push_neg at hc
      have hm : c.2 ∉ ([ 's', 'S' ] : List Char) := by
        simp [hc.1, hc.2]
      have hb : (c.2 == 's' || c.2 == 'S') = false := by
        simp [hc.1, hc.2]
      rw [if_neg hm, hb]
      simp

theorem countP_flatten_sum {α : Type} (p : α → Bool) (L : List (List α)) :
    L.flatten.countP p = (L.map (fun l => l.countP p)).sum := by
  induction L with
  | nil => rfl
  | cons a l ih => simp [List.countP_append, ih]

theorem countP_enumFrom (q : Char → Bool) (l : List Char) :
    ∀ n, (List.enumFrom n l).countP (fun cp => q cp.2) = l.countP q := by
  induction l with
  | nil => intro n; rfl
  | cons c t ih =>
    intro n
    simp [List.enumFrom, List.countP_cons, ih]

theorem countP_scan_rows (p : Char → Bool) (m : List (List Char)) :
    ∀ n, (((List.enumFrom n m).map
        (fun rp => rp.2.enum.map (fun cp => ((rp.1, cp.1), cp.2)))).flatten.countP
          (fun c => p c.2))
      = (m.map (fun row => row.countP p)).sum := by
  induction m with
  | nil => intro n; rfl
  | cons r t ih =>
    intro n
    simp only [List.enumFrom, List.map_cons, List.flatten_cons, List.countP_append,
      ih, List.map, List.sum_cons]
    congr 1
    rw [List.countP_map]
    exact countP_enumFrom p r 0

/-- The switch count the constructor scan derives equals the number of
switch symbols in the base map, summed row by row. -/
theorem scanned_switch_count (m : List (List Char)) :
    (SwitchEnv_init m).switch_count
      = (m.map (fun row => row.countP (fun ch => ch == 's' || ch == 'S'))).sum := by
  rw [SwitchEnv_init, scan_foldl_count]
  have h0 : (empty_switch_env m).switch_count = 0 := rfl
  rw [h0, Nat.zero_add]
  exact countP_scan_rows (fun ch => ch == 's' || ch == 'S') m 0

/-- C3: the registry invariant.  After construction the switch location
list has exactly switch_count entries, and that count is derived purely
by scanning the base layout (the row-by-row symbol count), independent
of the caller-supplied construction argument; neither the location list
nor the count is changed by custom_reset, custom_map_update, or step;
custom_map_update tests solvedness against this scanned switch_count
field (see C1). -/
theorem C3_registry_invariant :
    (∀ m, (SwitchEnv_init m).switch_locations.length = (SwitchEnv_init m).switch_count)
      ∧ (∀ m, (SwitchEnv_init m).switch_count
          = (m.map (fun row => row.countP (fun ch => ch == 's' || ch == 'S'))).sum)
      ∧ (∀ s, (custom_reset s).switch_locations = s.switch_locations
          ∧ (custom_reset s).switch_count = s.switch_count)
      ∧ (∀ s, (custom_map_update s).switch_locations = s.switch_locations
          ∧ (custom_map_update s).switch_count = s.switch_count)
      ∧ (∀ s acts g r bi,
          ((SwitchEnv.step s acts g r bi).1).switch_locations = s.switch_locations
            ∧ ((SwitchEnv.step s acts g r bi).1).switch_count = s.switch_count) := by
  refine ⟨?_, scanned_switch_count, ?_, ?_, ?_⟩
  · intro m
    exact scan_foldl_locations_length (scan_cells m) (empty_switch_env m) rfl
  · intro s
    exact ⟨rfl, rfl⟩
  · intro s
    exact ⟨cmu_switch_locations s, cmu_switch_count s⟩
  · intro s acts g r bi
    constructor <;>
      (simp only [SwitchEnv.step]; split <;>
        simp [cmu_switch_locations, cmu_switch_count])

/-! ## The map generator -/

/-- Number of switch symbols (on or off) embedded in one row. -/
def row_switch_count (row : List Char) : Nat :=
  row.countP (fun ch => ch == 's' || ch == 'S')

/-- Number of switch symbols embedded across all rows of a layout. -/
def layout_switch_total (rows : List (List Char)) : Nat :=
  (rows.map row_switch_count).sum

theorem build_rows_length (k : Nat) : ∀ ns, (build_rows k ns).length = k := by
  induction k with
  | zero => intro ns; rfl
  | succ k ih =>
    intro ns
    simp only [build_rows]
    split_ifs <;> simp [ih]

theorem build_rows_total (k : Nat) :
    ∀ ns, ns ≤ 2 * k → layout_switch_total (build_rows k ns) = ns := by
  induction k with
  | zero =>
    intro ns h
    interval_cases ns
    rfl
  | succ k ih =>
    intro ns h
    simp only [build_rows]
    split_ifs with h0 h1
    · subst h0
      have hrow : row_switch_count empty_row = 0 := by decide
      have ht := ih 0 (by omega)
      simp only [layout_switch_total, List.map_cons, List.sum_cons] at *
      omega
    · subst h1
      have hrow : row_switch_count one_switch_row = 1 := by decide
      have ht := ih (1 - 1) (by omega)
      simp only [layout_switch_total, List.map_cons, List.sum_cons] at *
      omega
    · have hrow : row_switch_count two_switch_row = 2 := by decide
      have ht := ih (ns - 2) (by omega)
      simp only [layout_switch_total, List.map_cons, List.sum_cons] at *
      omega

theorem build_rows_mem (k : Nat) :
    ∀ ns r, r ∈ build_rows k ns →
      r = empty_row ∨ r = one_switch_row ∨ r = two_switch_row := by
  induction k with
  | zero => intro ns r hr; simp [build_rows] at hr
  | succ k ih =>
    intro ns r hr
    simp only [build_rows] at hr
    split_ifs at hr <;> rcases List.mem_cons.mp hr with h | h
    · exact Or.inl h
    · exact ih _ r h
    · exact Or.inr (Or.inl h)
    · exact ih _ r h
    · exact Or.inr (Or.inr h)
    · exact ih _ r h

theorem layout_total_set (l : List (List Char))
    (h : ∀ r ∈ l, row_switch_count (insertSpawn r) = row_switch_count r) :
    ∀ i, layout_switch_total (l.set i (insertSpawn (l.getD i [])))
      = layout_switch_total l := by
  induction l with
  | nil => intro i; rfl
  | cons x t ih =>
    intro i
    cases i with
    | zero =>
      simp only [List.getD_cons_zero, List.set]
      simp only [layout_switch_total, List.map_cons, List.sum_cons]
      rw [h x (List.mem_cons_self x t)]
    | succ i =>
      simp only [List.getD_cons_succ, List.set]
      simp only [layout_switch_total, List.map_cons, List.sum_cons]
      rw [show (List.map row_switch_count (t.set i (insertSpawn (t.getD i [])))).sum
          = layout_switch_total (t.set i (insertSpawn (t.getD i []))) from rfl,
        ih (fun r hr => h r (List.mem_cons_of_mem x hr)) i]
      rfl

theorem set_append_left {α : Type} (a b : List α) (x : α) :
    ∀ i, i < a.length → (a ++ b).set i x = a.set i x ++ b := by
  induction a with
  | nil => intro i h; simp at h
  | cons y t ih =>
    intro i h
    cases i with
    | zero => rfl
    | succ i =>
      simp only [List.cons_append, List.set]
      exact congrArg _ (ih i (by simpa using h))

/-- C2 (amended): construct_map n is one top border row, exactly
max(1, ceil(n / 2)) interior rows, and one bottom border row; the switch
symbols embedded across the layout total n; and for n = 0 the single
interior row is the empty-row template with the spawn marker written
over column index 3 (the spawn write modifies the template, so the
interior row is not the bare template). -/
theorem C2_construct_map :
    (∀ n, ∃ interior, construct_map n = top_row :: interior ++ [ bottom_row ]
        ∧ interior.length = max 1 ((n + 1) / 2)
        ∧ layout_switch_total (construct_map n) = n)
      ∧ construct_map 0 = [ top_row, insertSpawn empty_row, bottom_row ] := by
  constructor
  · intro n
    have hle2 : n ≤ 2 * max 1 ((n + 1) / 2) := by
      have h1 : n ≤ 2 * ((n + 1) / 2) := by omega
      have h2 : 2 * ((n + 1) / 2) ≤ 2 * max 1 ((n + 1) / 2) :=
        Nat.mul_le_mul_left 2 (le_max_right 1 _)
      omega
    have hnr1 : 1 ≤ max 1 ((n + 1) / 2) := le_max_left _ _
    obtain ⟨nr, hnr⟩ : ∃ nr, max 1 ((n + 1) / 2) = nr := ⟨_, rfl⟩
    rw [hnr] at hle2 hnr1
    obtain ⟨i, hi, hile⟩ : ∃ i, (nr + 1) / 2 = i + 1 ∧ i + 1 ≤ nr :=
      ⟨(nr + 1) / 2 - 1, by omega, by omega⟩
    have hlen : (build_rows nr n).length = nr := build_rows_length nr n
    have hilt : i < (build_rows nr n).length := by omega
    have hcm : construct_map n
        = (top_row :: (build_rows nr n ++ [ bottom_row ])).set (i + 1)
            (insertSpawn ((top_row :: (build_rows nr n ++ [ bottom_row ])).getD
              (i + 1) [])) := by
      simp only [construct_map]
      rw [hnr, hi]
      rfl
    rw [List.getD_cons_succ, List.getD_append _ _ _ _ hilt] at hcm
    have hset : (top_row :: (build_rows nr n ++ [ bottom_row ])).set (i + 1)
          (insertSpawn ((build_rows nr n).getD i []))
        = top_row :: ((build_rows nr n ++ [ bottom_row ]).set i
            (insertSpawn ((build_rows nr n).getD i []))) := rfl
    rw [hset, set_append_left _ _ _ i hilt] at hcm
    refine ⟨(build_rows nr n).set i (insertSpawn ((build_rows nr n).getD i [])),
      hcm, ?_, ?_⟩
    · rw [hnr]
      simp [List.length_set, hlen]
    · rw [hcm]
      have hmemtot : ∀ r ∈ build_rows nr n,
          row_switch_count (insertSpawn r) = row_switch_count r := by
        intro r hr
        rcases build_rows_mem nr n r hr with h | h | h <;> subst h <;> decide
      have htot := layout_total_set (build_rows nr n) hmemtot i
      have hbt := build_rows_total nr n hle2
      have htop : row_switch_count top_row = 0 := by decide
      have hbot : row_switch_count bottom_row = 0 := by decide
      have hsplit : layout_switch_total (top_row :: ((build_rows nr n).set i
            (insertSpawn ((build_rows nr n).getD i [])) ++ [ bottom_row ]))
          = row_switch_count top_row
            + (layout_switch_total ((build_rows nr n).set i
                (insertSpawn ((build_rows nr n).getD i [])))
              + row_switch_count bottom_row) := by
        simp [layout_switch_total, List.map_append, List.sum_append]
      rw [hsplit, htot, hbt, htop, hbot]
      omega
  · decide

/-- Counterexample to C2 as stated: for n = 0 the single interior row of
the returned layout is not the empty-row template, because the spawn
marker has overwritten its column 3. -/
theorem C2_construct_map_cex : (construct_map 0).getD 1 [] ≠ empty_row := by
  decide

/-! ## The per-step info dictionary -/

theorem lookup_dict_update_self (bi : List (String × List (String × MetricValue)))
    (k : String) (v : List (String × MetricValue)) :
    List.lookup k (dict_update bi [ (k, v) ]) = some v := by
  simp [dict_update, List.lookup]

/-- C6 (amended): for a non-empty actions mapping, the info dictionary
returned by step carries, under the first listed agent id, an entry with
exactly the six metric fields.  Entries for the other agent ids are
whatever the base engine supplied; step itself adds none for them. -/
theorem C6_step_info_first_agent (s : SwitchEnv) (actions : List String)
    (g : Nat × Nat → Char) (r : String → Rat)
    (bi : List (String × List (String × MetricValue))) (h : actions ≠ []) :
    ∃ m, List.lookup (actions.headD "") ((SwitchEnv.step s actions g r bi).2) = some m
      ∧ m.map Prod.fst
        = [ "switches_on_at_termination", "total_pulled_on", "total_pulled_off",
            "timestep_first_switch_pull", "timestep_last_switch_pull",
            "total_successes" ] := by
  refine ⟨_, lookup_dict_update_self bi (actions.headD "") _, rfl⟩

theorem C6_step_info_first_agent_witness :
    ([ "agent-0", "agent-1" ] : List String) ≠ []
      ∧ ∃ m, List.lookup (([ "agent-0", "agent-1" ] : List String).headD "")
            ((SwitchEnv.step (SwitchEnv_new 2) [ "agent-0", "agent-1" ]
              (fun _ => ' ') (fun _ => 0) []).2) = some m
          ∧ m.map Prod.fst
            = [ "switches_on_at_termination", "total_pulled_on", "total_pulled_off",
                "timestep_first_switch_pull", "timestep_last_switch_pull",
                "total_successes" ] :=
  ⟨by decide, C6_step_info_first_agent (SwitchEnv_new 2) [ "agent-0", "agent-1" ]
    (fun _ => ' ') (fun _ => 0) [] (by decide)⟩

/-- Counterexample to C6 as stated: with two agents acting and the base
engine supplying an empty info dictionary, the info returned by step has
no entry at all for the second agent id, so it does not contain the six
fields for each agent id. -/
theorem C6_step_info_cex :
    List.lookup "agent-1"
      ((SwitchEnv.step (SwitchEnv_new 2) [ "agent-0", "agent-1" ]
        (fun _ => ' ') (fun _ => 0) []).2) = none := by
  rfl
